import Mathlib

/-!
Shallow embedding of `cmd/protoc-gen-go/internal_gengo/main.go`
(the protoc-gen-go backend code generator) and proofs about it.

Each definition mirrors one Go function or one emission block of the
source file; Go strings become `String`, Go slices become `List`,
Go maps used only for membership become `List` with `contains`.
The host `GeneratedFile.QualifiedGoIdent` facility (import
qualification) is external to this package; qualified identifiers are
modelled as the pre-resolved string stored in the model.
-/

namespace ProtocGenGo

/-- The closed set of field kinds (`protoreflect.Kind`). -/
inductive Kind where
  | bool | enum | int32 | sint32 | sfixed32 | uint32 | fixed32
  | int64 | sint64 | sfixed64 | uint64 | fixed64
  | float | double | string | bytes | message | group
  deriving DecidableEq, Repr

/-- Go `protoreflect.Cardinality`: optional, required or repeated. -/
inductive Cardinality where
  | optional | required | repeated
  deriving DecidableEq, Repr

/-- The file syntax version reported by `Desc.Syntax()`. -/
inductive ProtoVersion where
  | proto2 | proto3
  deriving DecidableEq, Repr

/-- A float/double default value as the Go code observes it through
`math.IsInf`/`math.IsNaN`: negative infinity, positive infinity, NaN,
or a finite value carried as its printed decimal text. -/
inductive FloatDefault where
  | negInf | posInf | nan | finite (text : String)
  deriving DecidableEq, Repr

/-- A field's declared default value (`Desc.Default()`), as accessed
through the typed accessors `Bool()`, `Bytes()`, `Float()`, `String()`,
`Enum()` and the printed form of `Interface()`. -/
inductive DefaultVal where
  | boolVal (b : Bool)
  | bytesVal (s : String)
  | floatVal (v : FloatDefault)
  | stringVal (s : String)
  | enumVal (n : Int)
  | otherText (s : String)
  deriving DecidableEq, Repr

/-- Go `Default().Bool()`. -/
def DefaultVal.boolV : DefaultVal → Bool
  | .boolVal b => b
  | _ => false

/-- Go `Default().Bytes()`, with the byte string carried as text. -/
def DefaultVal.bytesV : DefaultVal → String
  | .bytesVal s => s
  | _ => ""

/-- Go `Default().Float()`. -/
def DefaultVal.floatV : DefaultVal → FloatDefault
  | .floatVal v => v
  | _ => .finite "0"

/-- Go `Default().String()`. -/
def DefaultVal.stringV : DefaultVal → String
  | .stringVal s => s
  | _ => ""

/-- Go `Default().Enum()`: the default enum value's number. -/
def DefaultVal.enumV : DefaultVal → Int
  | .enumVal n => n
  | _ => 0

/-- Go `fmt.Sprint(Default().Interface())`: the printed text of the value. -/
def DefaultVal.interfaceText : DefaultVal → String
  | .boolVal b => if b then "true" else "false"
  | .bytesVal s => s
  | .floatVal .negInf => "-Inf"
  | .floatVal .posInf => "+Inf"
  | .floatVal .nan => "NaN"
  | .floatVal (.finite t) => t
  | .stringVal s => s
  | .enumVal n => toString n
  | .otherText s => s

/-- One declared enum value: schema name (`Desc.Name()`), number
(`Desc.Number()`, 32-bit signed in the schema, carried as `Int`), and
resolved Go identifier (`GoIdent.GoName`). -/
structure EnumValue where
  name : String
  number : Int
  goName : String
  deriving DecidableEq, Repr

/-- A resolved enum type: Go identifier, the proto package of the file
that declares it (used by `enumRegistryName`) and its declared values
in declaration order. -/
structure EnumType where
  goName : String
  filePackage : String
  values : List EnumValue
  deriving DecidableEq, Repr

/-- Function `enumRegistryName`: the name used to register an enum with the
proto registry, `<proto_package>.<go_ident>` (walking the descriptor
parents up to the file to find the package). -/
def enumRegistryName (e : EnumType) : String :=
  e.filePackage ++ "." ++ e.goName

/-- The non-recursive attributes of a resolved field
(`protogen.Field` plus the `Desc` attributes the generator reads). -/
structure FieldData where
  /-- `Desc.Name()`, the declared field name. -/
  name : String
  /-- `GoName`, the resolved Go field name. -/
  goName : String
  /-- `Desc.Number()`. -/
  number : Nat
  kind : Kind
  cardinality : Cardinality
  /-- `Desc.IsPacked()`. -/
  packed : Bool
  /-- `Desc.JSONName()`. -/
  jsonName : String
  /-- `Desc.Syntax()` of the declaring file. -/
  version : ProtoVersion
  /-- whether `Desc.OneofType()` is non-nil. -/
  inOneof : Bool
  /-- `Desc.HasDefault()`. -/
  hasDefault : Bool
  /-- `Desc.Default()`. -/
  defaultVal : DefaultVal
  /-- `field.EnumType` (meaningful only for enum kind). -/
  enumType : EnumType
  /-- `MessageType.Desc.Name()` (meaningful only for message/group kind). -/
  messageTypeName : String
  /-- `MessageType.Desc.FullName()`. -/
  messageTypeFullName : String
  /-- the qualified Go identifier of `MessageType`. -/
  messageTypeGoIdent : String
  /-- `Desc.IsMap()`. -/
  isMap : Bool
  deriving Repr

/-- A resolved field: its attributes plus, when its message type is a
map-entry pseudo-message, that entry's synthetic fields
(`MessageType.Fields`, key then value). -/
inductive Field where
  | node (d : FieldData) (mapFields : List Field)

/-- The field's non-recursive attributes. -/
def Field.data : Field → FieldData
  | .node d _ => d

/-- Go `MessageType.Fields` of the field's map-entry message type. -/
def Field.mapFields : Field → List Field
  | .node _ c => c

/-- The base type/pointer pair of `fieldGoType`'s kind switch (the
value of `goType`/`pointer` before the repeated and proto3
adjustments, for a field that is not a map). -/
def fieldGoTypeBase (d : FieldData) : String × Bool :=
  match d.kind with
  | .bool => ("bool", true)
  | .enum => (d.enumType.goName, true)
  | .int32 => ("int32", true)
  | .sint32 => ("int32", true)
  | .sfixed32 => ("int32", true)
  | .uint32 => ("uint32", true)
  | .fixed32 => ("uint32", true)
  | .int64 => ("int64", true)
  | .sint64 => ("int64", true)
  | .sfixed64 => ("int64", true)
  | .uint64 => ("uint64", true)
  | .fixed64 => ("uint64", true)
  | .float => ("float32", true)
  | .double => ("float64", true)
  | .string => ("string", true)
  | .bytes => ("[]byte", false)
  | .message => ("*" ++ d.messageTypeGoIdent, false)
  | .group => ("*" ++ d.messageTypeGoIdent, false)

/-- Function `fieldGoType` for a non-map field: the base kind mapping, wrapped
in a slice with the pointer flag cleared for repeated cardinality, and
the pointer flag cleared under proto3 syntax. -/
def fieldGoTypeNonMap (d : FieldData) : String × Bool :=
  let base := fieldGoTypeBase d
  let withRep : String × Bool :=
    if d.cardinality = .repeated then ("[]" ++ base.1, false) else base
  if d.version = .proto3 then (withRep.1, false) else withRep

/-- Function `fieldGoType`: the Go type used for a field and whether the struct
field is a pointer to it.  A message/group field that is a map returns
early with the synthesized `map[K]V` type over the map entry's two
synthetic fields, skipping the repeated and proto3 adjustments (Go
indexes `MessageType.Fields[0]` and `[1]`; a map field whose entry
lacks two fields would panic in Go and is routed here through the
non-map branch, unreachable on a well-formed model). -/
def fieldGoType : Field → String × Bool
  | .node d [] => fieldGoTypeNonMap d
  | .node d [_] => fieldGoTypeNonMap d
  | .node d (k :: v :: _) =>
    if (d.kind = .message ∨ d.kind = .group) ∧ d.isMap = true then
      ("map[" ++ (fieldGoType k).1 ++ "]" ++ (fieldGoType v).1, false)
    else fieldGoTypeNonMap d
termination_by structural f => f

/-- The `wireTypes` lookup table keyed by kind. -/
def wireTypes : Kind → String
  | .bool => "varint"
  | .enum => "varint"
  | .int32 => "varint"
  | .sint32 => "zigzag32"
  | .uint32 => "varint"
  | .int64 => "varint"
  | .sint64 => "zigzag64"
  | .uint64 => "varint"
  | .sfixed32 => "fixed32"
  | .fixed32 => "fixed32"
  | .float => "fixed32"
  | .sfixed64 => "fixed64"
  | .fixed64 => "fixed64"
  | .double => "fixed64"
  | .string => "bytes"
  | .bytes => "bytes"
  | .message => "bytes"
  | .group => "group"

/-- The cardinality token appended by the `switch` in `fieldProtobufTag`. -/
def cardinalityToken : Cardinality → String
  | .optional => "opt"
  | .required => "req"
  | .repeated => "rep"

/-- The name used in the `name=` token: the declared field name, except
that a group field uses its message type's name (the descriptor name of
a group field is lowercased, so the original capitalization is taken
from the field's `MessageType`). -/
def tagWireName (d : FieldData) : String :=
  if d.kind = .group then d.messageTypeName else d.name

/-- The `def=` payload of the tag: bool as `1`/`0`, bytes as the raw
byte text, float/double as `-inf`/`inf`/`nan` or the printed decimal,
and every other kind as the printed `Interface()` value. -/
def fieldDefaultTagText (d : FieldData) : String :=
  match d.kind with
  | .bool => if d.defaultVal.boolV then "1" else "0"
  | .bytes => d.defaultVal.bytesV
  | .float | .double =>
    match d.defaultVal.floatV with
    | .negInf => "-inf"
    | .posInf => "inf"
    | .nan => "nan"
    | .finite _ => d.defaultVal.interfaceText
  | _ => d.defaultVal.interfaceText

/-- The token list `tag` built by the successive appends of
`fieldProtobufTag`, in the order the Go code executes them. -/
def fieldProtobufTagTokens (f : Field) : List String :=
  let d := f.data
  let tag : List String := [wireTypes d.kind]
  let tag := tag ++ [toString d.number]
  let tag := tag ++ [cardinalityToken d.cardinality]
  let tag := if d.packed then tag ++ ["packed"] else tag
  let name := tagWireName d
  let tag := tag ++ ["name=" ++ name]
  let tag :=
    if d.jsonName ≠ "" ∧ d.jsonName ≠ name then tag ++ ["json=" ++ d.jsonName] else tag
  let tag := if d.version = .proto3 then tag ++ ["proto3"] else tag
  let tag :=
    if d.kind = .enum then tag ++ ["enum=" ++ enumRegistryName d.enumType] else tag
  let tag := if d.inOneof then tag ++ ["oneof"] else tag
  let tag := if d.hasDefault then tag ++ ["def=" ++ fieldDefaultTagText d] else tag
  tag

/-- Function `fieldProtobufTag`: `strings.Join(tag, ",")`. -/
def fieldProtobufTag (f : Field) : String :=
  String.intercalate "," (fieldProtobufTagTokens f)

/-- Function `fieldHasDefault`: whether the generator considers the field to
have a default value.  For consistency with the previous generator it
returns false for string fields with `default=""` and bytes fields
with an empty default. -/
def fieldHasDefault (f : Field) : Bool :=
  if !f.data.hasDefault then false
  else
    match f.data.kind with
    | .string => f.data.defaultVal.stringV ≠ ""
    | .bytes => f.data.defaultVal.bytesV.length > 0
    | _ => true

/-- A resolved extension (`protogen.Extension`, an alias of
`protogen.Field`): the underlying field plus the attributes the
generator reads from it — the containing message's Go name when the
extension is nested (`ParentMessage`), the extension's own `GoName`,
whether the extended type has message-set wire format, the extension's
fully-qualified name and that name's parent. -/
structure Extension where
  field : Field
  parentMessageGoName : Option String
  goName : String
  extendedMessageSetWireFormat : Bool
  fullName : String
  fullNameParent : String

/-- A resolved message as the generator reads it: Go identifier,
fully-qualified schema name, whether it is a map-entry pseudo-message,
its fields and its nested extensions. -/
structure Message where
  goName : String
  fullName : String
  isMapEntry : Bool
  fields : List Field
  extensions : List Extension

/-- Function `fieldDefaultValue`: the expression a getter returns when the
field is unset.  Repeated fields return `nil`; fields with a
generator-recognised default return the `Default_<Msg>_<Field>`
holder (copied via `append` for bytes); otherwise the kind's zero
value, with enum fields returning the enum's first declared value
(Go indexes `EnumType.Values[0]`, a panic on an empty enum; modelled
with a dummy head on the empty list, unreachable on a well-formed
model). -/
def fieldDefaultValue (m : Message) (f : Field) : String :=
  if f.data.cardinality = .repeated then "nil"
  else if fieldHasDefault f then
    let defVarName := "Default_" ++ m.goName ++ "_" ++ f.data.goName
    if f.data.kind = .bytes then "append([]byte(nil), " ++ defVarName ++ "...)"
    else defVarName
  else
    match f.data.kind with
    | .bool => "false"
    | .string => "\"\""
    | .message => "nil"
    | .group => "nil"
    | .bytes => "nil"
    | .enum => (f.data.enumType.values.headD ⟨"", 0, ""⟩).goName
    | _ => "0"

/-- Go `strconv.Quote`, modelled as plain double-quoting (the escaping of
special characters inside the literal is not needed by any property
proved here). -/
def goQuote (s : String) : String :=
  "\"" ++ s ++ "\""

/-- A generated default-value holder declaration: a Go `const` or
`var` with a name, a type and an initializer expression. -/
inductive DefaultDecl where
  | constDecl (declName typeName value : String)
  | varDecl (declName typeName value : String)
  deriving DecidableEq, Repr

/-- The per-field default-holder emission of `genMessage` ("Constants
and vars holding the default values of fields"): nothing unless
`fieldHasDefault`; strings and enums become consts, bytes a var, and
float/double defaults route −∞/+∞/NaN through `math.Inf`/`math.NaN`
(wrapped in a `float32(...)` conversion when the field is
single-precision) while finite values stay consts with the printed
literal.  The enum case looks the default number up among the enum's
values (`Values().ByNumber`, first match; a missing number would panic
in Go and is modelled with a dummy value). -/
def genDefaultDecl (m : Message) (f : Field) : Option DefaultDecl :=
  if !fieldHasDefault f then none
  else
    let d := f.data
    let defVarName := "Default_" ++ m.goName ++ "_" ++ d.goName
    some (match d.kind with
      | .string => .constDecl defVarName "string" (goQuote d.defaultVal.stringV)
      | .bytes => .varDecl defVarName "[]byte" ("[]byte(" ++ goQuote d.defaultVal.bytesV ++ ")")
      | .enum =>
        let evalue := (d.enumType.values.find? (fun v => v.number == d.defaultVal.enumV)).getD ⟨"", 0, ""⟩
        .constDecl defVarName d.enumType.goName evalue.goName
      | .float | .double =>
        let goType := if d.kind = .float then "float32" else "float64"
        let funcCall : String → String → String := fun fn param =>
          let s := "math." ++ fn ++ param
          if goType ≠ "float64" then goType ++ "(" ++ s ++ ")" else s
        match d.defaultVal.floatV with
        | .negInf => .varDecl defVarName goType (funcCall "Inf" "(-1)")
        | .posInf => .varDecl defVarName goType (funcCall "Inf" "(1)")
        | .nan => .varDecl defVarName goType (funcCall "NaN" "()")
        | .finite t => .constDecl defVarName goType t
      | _ => .constDecl defVarName (fieldGoType f).1 d.defaultVal.interfaceText)

/-- One row of the emitted `<Enum>_name` map literal: the value's
number and schema name, with `duplicate` true when the row is emitted
behind the `// Duplicate value: ` comment marker (so the effective map
entry for that number comes from the first occurrence). -/
structure EnumNameMapEntry where
  duplicate : Bool
  number : Int
  valueName : String
  deriving DecidableEq, Repr

/-- The loop of `genEnum` that emits the `<Enum>_name` table: walk the
values keeping the set of numbers already generated; a value whose
number was already seen is emitted with the duplicate marker. -/
def enumNameMapGo : List EnumValue → List Int → List EnumNameMapEntry
  | [], _ => []
  | v :: rest, generated =>
    ⟨generated.contains v.number, v.number, v.name⟩ :: enumNameMapGo rest (v.number :: generated)

/-- The rows of the emitted `<Enum>_name` (number → name) table. -/
def enumNameMap (e : EnumType) : List EnumNameMapEntry :=
  enumNameMapGo e.values []

/-- The rows of the emitted `<Enum>_value` (name → number) table:
one row per declared value, keyed by its name. -/
def enumValueMap (e : EnumType) : List (String × Int) :=
  e.values.map (fun v => (v.name, v.number))

/-- Function `extensionVar`: the name of the var holding the `ExtensionDesc`,
`E_<Parent>_<GoName>` for a nested extension and `E_<GoName>` for a
file-level one. -/
def extensionVar (e : Extension) : String :=
  "E_" ++ (match e.parentMessageGoName with
    | some p => p ++ "_"
    | none => "") ++ e.goName

/-- Function `isExtensionMessageSetElement`: a nested extension named
`message_set_extension` whose extended type has message-set wire
format. -/
def isExtensionMessageSetElement (e : Extension) : Bool :=
  e.parentMessageGoName.isSome
    && e.extendedMessageSetWireFormat
    && e.field.data.name == "message_set_extension"

/-- One registration call emitted into the generated `init` function. -/
inductive Reg where
  | regEnum (registryName : String)
  | regExtension (varName : String)
  | regMessageSetType (goType : String) (number : Nat) (parentName : String)
  | regType (goName : String) (fullName : String)
  | regMapType (goType : String) (typeName : String)
  deriving DecidableEq, Repr

/-- Function `genRegisterExtension`: a `RegisterExtension` call, followed for a
message-set element by a `RegisterMessageSetType` call. -/
def genRegisterExtension (e : Extension) : List Reg :=
  Reg.regExtension (extensionVar e) ::
    (if isExtensionMessageSetElement e then
      let gp := fieldGoType e.field
      let goType := if gp.2 then "*" ++ gp.1 else gp.1
      [Reg.regMessageSetType goType e.field.data.number e.fullNameParent]
    else [])

/-- The relation ordering a message's map fields in `genInitFunction`:
by the map-entry message type's fully-qualified name. -/
def mapNameLe (a b : Field) : Prop :=
  a.data.messageTypeFullName ≤ b.data.messageTypeFullName

instance : DecidableRel mapNameLe := fun a b =>
  inferInstanceAs (Decidable (a.data.messageTypeFullName ≤ b.data.messageTypeFullName))

instance : IsTotal Field mapNameLe :=
  ⟨fun a b => le_total a.data.messageTypeFullName b.data.messageTypeFullName⟩

instance : IsTrans Field mapNameLe :=
  ⟨fun _ _ _ hab hbc => le_trans hab hbc⟩

/-- The `sort.Slice` of `genInitFunction` over a message's map fields,
modelled as an insertion sort under the same key (the map-entry type's
fully-qualified name). -/
def mapFieldsSorted (m : Message) : List Field :=
  List.insertionSort mapNameLe (m.fields.filter (fun f => f.data.isMap))

/-- The registrations one message contributes to the `init` function:
nothing for a map-entry pseudo-message; otherwise its nested
extensions, then `RegisterType` under its fully-qualified name, then
`RegisterMapType` for each map field in sorted order. -/
def messagesInitRegs : List Message → List Reg
  | [] => []
  | m :: rest =>
    if m.isMapEntry then messagesInitRegs rest
    else
      m.extensions.flatMap genRegisterExtension
        ++ Reg.regType m.goName m.fullName
          :: ((mapFieldsSorted m).map (fun f =>
                Reg.regMapType (fieldGoType f).1 f.data.messageTypeFullName)
              ++ messagesInitRegs rest)

/-- The per-file state `fileInfo` as `genInitFunction` consumes it:
the flattened enum and message lists collected by `GenerateFile`, the
flattened extension list (used only for the emptiness check) and the
file-level extensions `f.Extensions`. -/
structure FileInfo where
  allEnums : List EnumType
  allMessages : List Message
  allExtensions : List Extension
  extensions : List Extension

/-- Function `genInitFunction`: the sequence of registration calls emitted into
the generated `init` function (empty when the file declares no
messages, enums or extensions, in which case no `init` function is
emitted at all). -/
def genInitFunction (f : FileInfo) : List Reg :=
  if f.allMessages.length = 0 ∧ f.allEnums.length = 0 ∧ f.allExtensions.length = 0 then []
  else
    f.allEnums.map (fun e => Reg.regEnum (enumRegistryName e))
      ++ messagesInitRegs f.allMessages
      ++ f.extensions.flatMap genRegisterExtension

/-- The outcome of `genFileDescriptor`: errors reported to the plugin's
error sink (`gen.Error`), whether the `init { proto.RegisterFile(...) }`
line was emitted, and the contents of the emitted descriptor byte-array
variable when it was emitted. -/
structure DescriptorOut where
  errors : List String
  registersFile : Bool
  descriptorBytes : Option (List Nat)
  deriving DecidableEq, Repr

/-- Function `genFileDescriptor`: marshal the source-info-stripped file
descriptor (`proto.Marshal`, the external fallible call, supplied here
as an `Except`), and on failure report the error and return without
emitting anything; on success gzip the bytes (the external compressor,
supplied as a function) and emit the `RegisterFile` init line and the
descriptor variable. -/
def genFileDescriptor (gzipBytes : List Nat → List Nat)
    (marshalResult : Except String (List Nat)) : DescriptorOut :=
  match marshalResult with
  | .error e => ⟨[e], false, none⟩
  | .ok b => ⟨[], true, some (gzipBytes b)⟩

/-- The guard of a generated non-oneof getter body: either
`if m != nil` alone, or `if m != nil && m.<Field> != nil`. -/
inductive GetterGuard where
  | recvNonNil
  | recvAndFieldNonNil
  deriving DecidableEq, Repr

/-- The shape of a generated non-oneof getter body: its guard, whether
the returned field access is dereferenced (`return *m.<Field>`), and
the expression returned when the guard fails. -/
structure GetterBody where
  guard : GetterGuard
  deref : Bool
  defaultExpr : String
  deriving DecidableEq, Repr

/-- The non-oneof branch of the getter emission in `genMessage`: the
guard is the bare receiver check for proto3 files or when the default
expression is `nil`, and otherwise also checks the field pointer; the
return is dereferenced exactly when `fieldGoType` says the struct
field is a pointer; the fall-through returns `fieldDefaultValue`. -/
def genGetterBody (m : Message) (f : Field) : GetterBody :=
  let defaultValue := fieldDefaultValue m f
  { guard :=
      if f.data.version = .proto3 ∨ defaultValue = "nil" then .recvNonNil
      else .recvAndFieldNonNil
    deref := (fieldGoType f).2
    defaultExpr := defaultValue }

/-- The state a generated getter runs against: a nil receiver, or a
receiver whose stored field is either unset (nil pointer) or holds a
value, carried as the text of what `m.<Field>` evaluates to. -/
inductive RecvState where
  | nilRecv
  | withField (fieldSet : Bool) (value : String)
  deriving DecidableEq, Repr

/-- Whether a getter guard holds in a receiver state.  Both guard
forms are Go conditions whose first conjunct is `m != nil`, so every
guard fails on a nil receiver; the two-conjunct form additionally
requires the field pointer to be set. -/
def guardHolds : GetterGuard → RecvState → Bool
  | _, .nilRecv => false
  | .recvNonNil, .withField _ _ => true
  | .recvAndFieldNonNil, .withField fieldSet _ => fieldSet

/-- Evaluation of a generated getter body: if the guard holds, return
the stored field value; otherwise fall through to the default
expression. -/
def runGetter (b : GetterBody) (s : RecvState) : String :=
  if guardHolds b.guard s then
    match s with
    | .withField _ v => v
    | .nilRecv => b.defaultExpr
  else b.defaultExpr

/-! Concrete sample model values, used to instantiate the theorems
below on closed inputs. -/

/-- A neutral proto2 optional int32 field to build samples from. -/
def baseFieldData : FieldData :=
  { name := "f", goName := "F", number := 1, kind := .int32,
    cardinality := .optional, packed := false, jsonName := "f",
    version := .proto2, inOneof := false, hasDefault := false,
    defaultVal := .otherText "0", enumType := ⟨"", "", []⟩,
    messageTypeName := "", messageTypeFullName := "", messageTypeGoIdent := "",
    isMap := false }

/-- The synthetic key field of a `map<string,int32>` entry. -/
def sampleMapKey : Field :=
  Field.node
    { baseFieldData with
      name := "key", goName := "Key", number := 1, kind := .string,
      jsonName := "key", version := .proto3, defaultVal := .stringVal "" } []

/-- The synthetic value field of a `map<string,int32>` entry. -/
def sampleMapVal : Field :=
  Field.node
    { baseFieldData with
      name := "value", goName := "Value", number := 2, kind := .int32,
      jsonName := "value", version := .proto3 } []

/-- The attributes of a `map<string,int32> tags = 5;` field. -/
def sampleMapData : FieldData :=
  { baseFieldData with
    name := "tags", goName := "Tags", number := 5, kind := .message,
    cardinality := .repeated, jsonName := "tags", version := .proto3,
    messageTypeName := "TagsEntry", messageTypeFullName := "test.M.TagsEntry",
    messageTypeGoIdent := "M_TagsEntry", isMap := true }

/-- A `map<string,int32> tags = 5;` field. -/
def sampleMapField : Field :=
  Field.node sampleMapData [sampleMapKey, sampleMapVal]

/-- A proto3 `int32 id = 1;` field. -/
def sampleInt32Field : Field :=
  Field.node
    { baseFieldData with
      name := "id", goName := "Id", jsonName := "id", version := .proto3 } []

/-- A proto2 `optional string name = 2 [default = "x"];` field. -/
def sampleStringDefField : Field :=
  Field.node
    { baseFieldData with
      name := "name", goName := "Name", number := 2, kind := .string,
      jsonName := "name", hasDefault := true, defaultVal := .stringVal "x" } []

/-- A proto2 `optional float ratio = 3 [default = -inf];` field. -/
def sampleFloatField : Field :=
  Field.node
    { baseFieldData with
      name := "ratio", goName := "Ratio", number := 3, kind := .float,
      jsonName := "ratio", hasDefault := true, defaultVal := .floatVal .negInf } []

/-- An enum `Color { RED = 0; GREEN = 1; BLUE = 1; }`. -/
def colorEnum : EnumType :=
  { goName := "Color", filePackage := "test",
    values := [⟨"RED", 0, "Color_RED"⟩, ⟨"GREEN", 1, "Color_GREEN"⟩,
               ⟨"BLUE", 1, "Color_BLUE"⟩] }

/-- A sample message holding the sample fields. -/
def sampleMessage : Message :=
  { goName := "M", fullName := "test.M", isMapEntry := false,
    fields := [sampleInt32Field, sampleStringDefField, sampleFloatField, sampleMapField],
    extensions := [] }

/-- A sample file holding the sample enum and message. -/
def sampleFileInfo : FileInfo :=
  { allEnums := [colorEnum], allMessages := [sampleMessage],
    allExtensions := [], extensions := [] }

/-! Theorems settling the claims. -/

/-- Helper: the indirection flag of the non-map branch is cleared for
proto3 syntax and for repeated cardinality. -/
theorem fieldGoTypeNonMap_snd (d : FieldData) :
    (d.version = .proto3 → (fieldGoTypeNonMap d).2 = false) ∧
    (d.cardinality = .repeated → (fieldGoTypeNonMap d).2 = false) := by
  constructor <;> intro h <;> simp only [fieldGoTypeNonMap]
  · simp [h]
  · cases hv : d.version <;> simp [hv, h]

/-- C7: the type mapper's indirection flag is false for every field
declared under proto3 syntax, and false for every repeated field
regardless of syntax or kind. -/
theorem fieldGoType_indirection (f : Field) :
    (f.data.version = .proto3 → (fieldGoType f).2 = false) ∧
    (f.data.cardinality = .repeated → (fieldGoType f).2 = false) := by
  cases f with
  | node d mf =>
    match mf with
    | [] => simpa [fieldGoType, Field.data] using fieldGoTypeNonMap_snd d
    | [k] => simpa [fieldGoType, Field.data] using fieldGoTypeNonMap_snd d
    | k :: v :: r =>
      constructor <;> intro h <;> simp only [Field.data] at h <;>
        simp only [fieldGoType] <;> split
      · rfl
      · exact (fieldGoTypeNonMap_snd d).1 h
      · rfl
      · exact (fieldGoTypeNonMap_snd d).2 h

/-- C7 witness: the proto3 repeated map field `tags` has the
indirection flag false. -/
theorem fieldGoType_indirection_witness :
    sampleMapData.version = ProtoVersion.proto3 ∧ (fieldGoType sampleMapField).2 = false :=
  ⟨rfl, (fieldGoType_indirection sampleMapField).1 rfl⟩

/-- C6: for every map field (message-kind field whose message type is
a map-entry pseudo-message), the type mapper returns the
two-parameter `map[K]V` type whose parameters are the mapped types of
the entry's key and value fields, with the indirection flag false. -/
theorem fieldGoType_map (d : FieldData) (k v : Field) (rest : List Field)
    (hkind : d.kind = .message ∨ d.kind = .group) (hmap : d.isMap = true) :
    fieldGoType (.node d (k :: v :: rest)) =
      ("map[" ++ (fieldGoType k).1 ++ "]" ++ (fieldGoType v).1, false) := by
  simp [fieldGoType, hkind, hmap]

/-- C6 witness: `map<string,int32> tags` maps to `map[string]int32`,
non-indirect. -/
theorem fieldGoType_map_witness :
    (sampleMapData.kind = Kind.message ∨ sampleMapData.kind = Kind.group) ∧
      sampleMapData.isMap = true ∧
      fieldGoType sampleMapField = ("map[string]int32", false) :=
  ⟨Or.inl rfl, rfl, by
    rw [show sampleMapField = Field.node sampleMapData [sampleMapKey, sampleMapVal] from rfl,
      fieldGoType_map sampleMapData sampleMapKey sampleMapVal [] (Or.inl rfl) rfl]
    rfl⟩

/-- Helper: a string has positive length iff it is not empty. -/
theorem string_length_pos (s : String) : 0 < s.length ↔ s ≠ "" := by
  constructor
  · intro h he
    subst he
    simp at h
  · intro h
    cases s with
    | mk data =>
      cases data with
      | nil => exact absurd rfl h
      | cons c cs => simp [String.length]

/-- C5: a field is considered to have a non-trivial default iff it
declares an explicit default and either its kind is not string/bytes
or the declared default value is non-empty. -/
theorem fieldHasDefault_iff (f : Field) :
    fieldHasDefault f = true ↔
      f.data.hasDefault = true ∧
        ((f.data.kind ≠ .string ∧ f.data.kind ≠ .bytes) ∨
          (f.data.kind = .string ∧ f.data.defaultVal.stringV ≠ "") ∨
          (f.data.kind = .bytes ∧ f.data.defaultVal.bytesV ≠ "")) := by
  unfold fieldHasDefault
  cases hd : f.data.hasDefault <;> simp [hd] <;>
    cases hk : f.data.kind <;> simp [hk] <;>
    simp [string_length_pos]

/-- C3: for a non-repeated field, the getter's returned-when-unset
value is the kind's zero value when there is no non-trivial default
(`false`, `0`, empty string, `nil` for message/group/bytes, and the
enum's first declared value for enums), and the named default holder
when there is one (copied through `append` for bytes). -/
theorem fieldDefaultValue_spec (m : Message) (f : Field)
    (hrep : f.data.cardinality ≠ .repeated) :
    (fieldHasDefault f = false → f.data.kind = .bool → fieldDefaultValue m f = "false") ∧
    (fieldHasDefault f = false → f.data.kind = .string → fieldDefaultValue m f = "\"\"") ∧
    (fieldHasDefault f = false →
      (f.data.kind = .message ∨ f.data.kind = .group ∨ f.data.kind = .bytes) →
      fieldDefaultValue m f = "nil") ∧
    (fieldHasDefault f = false → f.data.kind = .enum →
      ∀ ev evs, f.data.enumType.values = ev :: evs → fieldDefaultValue m f = ev.goName) ∧
    (fieldHasDefault f = false →
      f.data.kind ≠ .bool → f.data.kind ≠ .string → f.data.kind ≠ .message →
      f.data.kind ≠ .group → f.data.kind ≠ .bytes → f.data.kind ≠ .enum →
      fieldDefaultValue m f = "0") ∧
    (fieldHasDefault f = true → f.data.kind ≠ .bytes →
      fieldDefaultValue m f = "Default_" ++ m.goName ++ "_" ++ f.data.goName) ∧
    (fieldHasDefault f = true → f.data.kind = .bytes →
      fieldDefaultValue m f =
        "append([]byte(nil), " ++ ("Default_" ++ m.goName ++ "_" ++ f.data.goName) ++ "...)") := by
  refine ⟨?_, ?_, ?_, ?_, ?_, ?_, ?_⟩
  · intro hdef hk
    simp [fieldDefaultValue, hrep, hdef, hk]
  · intro hdef hk
    simp [fieldDefaultValue, hrep, hdef, hk]
  · intro hdef hk
    rcases hk with hk | hk | hk <;> simp [fieldDefaultValue, hrep, hdef, hk]
  · intro hdef hk ev evs hvals
    simp [fieldDefaultValue, hrep, hdef, hk, hvals]
  · intro hdef h1 h2 h3 h4 h5 h6
    cases hk : f.data.kind <;> simp_all [fieldDefaultValue, hrep, hdef]
  · intro hdef hk
    simp [fieldDefaultValue, hrep, hdef, hk]
  · intro hdef hk
    simp [fieldDefaultValue, hrep, hdef, hk]

/-- C3 witness: the proto2 string field with default `"x"` has getter
default `Default_M_Name`, the named holder. -/
theorem fieldDefaultValue_spec_witness :
    sampleStringDefField.data.cardinality ≠ Cardinality.repeated ∧
      fieldHasDefault sampleStringDefField = true ∧
      fieldDefaultValue sampleMessage sampleStringDefField = "Default_M_Name" := by
  refine ⟨by decide, rfl, ?_⟩
  have h := (fieldDefaultValue_spec sampleMessage sampleStringDefField
    (by decide)).2.2.2.2.2.1 rfl (by decide)
  simpa using h

/-- C4: a float/double field whose explicit default is −∞, +∞ or NaN
gets a default holder initialized through `math.Inf`/`math.NaN`
(never a bare literal), down-cast through `float32(...)` when the
field is single-precision. -/
theorem genDefaultDecl_float_special (m : Message) (f : Field)
    (hk : f.data.kind = .float ∨ f.data.kind = .double)
    (hd : fieldHasDefault f = true)
    (hv : f.data.defaultVal.floatV = .negInf ∨ f.data.defaultVal.floatV = .posInf ∨
      f.data.defaultVal.floatV = .nan) :
    genDefaultDecl m f =
      some (.varDecl ("Default_" ++ m.goName ++ "_" ++ f.data.goName)
        (if f.data.kind = .float then "float32" else "float64")
        (let core :=
          match f.data.defaultVal.floatV with
          | .negInf => "math.Inf(-1)"
          | .posInf => "math.Inf(1)"
          | _ => "math.NaN()"
        if f.data.kind = .float then "float32(" ++ core ++ ")" else core)) := by
  rcases hk with hk | hk <;>
    rcases hv with hv | hv | hv <;>
    simp [genDefaultDecl, hd, hk, hv]

/-- C4 witness: the float field with default −∞ gets the holder
`var Default_M_Ratio float32 = float32(math.Inf(-1))`. -/
theorem genDefaultDecl_float_special_witness :
    fieldHasDefault sampleFloatField = true ∧
      genDefaultDecl sampleMessage sampleFloatField =
        some (.varDecl "Default_M_Ratio" "float32" "float32(math.Inf(-1))") := by
  refine ⟨rfl, ?_⟩
  have h := genDefaultDecl_float_special sampleMessage sampleFloatField
    (Or.inl rfl) rfl (Or.inl rfl)
  simpa using h

/-- C1: the tag token sequence is exactly wire type, number,
cardinality, [packed], name, [json], [proto3], [enum], [oneof],
[def], and when the `def` token is present it is the last token. -/
theorem fieldProtobufTag_token_order (f : Field) :
    fieldProtobufTagTokens f =
      [wireTypes f.data.kind, toString f.data.number, cardinalityToken f.data.cardinality]
        ++ (if f.data.packed then ["packed"] else [])
        ++ ["name=" ++ tagWireName f.data]
        ++ (if f.data.jsonName ≠ "" ∧ f.data.jsonName ≠ tagWireName f.data then
            ["json=" ++ f.data.jsonName] else [])
        ++ (if f.data.version = .proto3 then ["proto3"] else [])
        ++ (if f.data.kind = .enum then ["enum=" ++ enumRegistryName f.data.enumType] else [])
        ++ (if f.data.inOneof then ["oneof"] else [])
        ++ (if f.data.hasDefault then ["def=" ++ fieldDefaultTagText f.data] else []) ∧
    (f.data.hasDefault = true →
      (fieldProtobufTagTokens f).getLast? = some ("def=" ++ fieldDefaultTagText f.data)) := by
  constructor
  · simp only [fieldProtobufTagTokens]
    split_ifs <;>
      simp only [List.append_assoc, List.cons_append, List.nil_append,
        List.append_nil, List.singleton_append]
  · intro h
    simp only [fieldProtobufTagTokens, h, if_true]
    exact List.getLast?_concat _

/-- C1 witness: `optional string name = 2 [default = "x"]` in proto2
yields the tokens `bytes,2,opt,name=name,def=x`, and the `def` token
is last. -/
theorem fieldProtobufTag_token_order_witness :
    sampleStringDefField.data.hasDefault = true ∧
      fieldProtobufTagTokens sampleStringDefField = ["bytes", "2", "opt", "name=name", "def=x"] ∧
      (fieldProtobufTagTokens sampleStringDefField).getLast? = some "def=x" := by
  refine ⟨rfl, ?_, ?_⟩
  · have h := (fieldProtobufTag_token_order sampleStringDefField).1
    simpa using h
  · have h := (fieldProtobufTag_token_order sampleStringDefField).2 rfl
    simpa using h

/-- C9: serializing the self-descriptor is the single fallible step;
on failure the error goes to the sink and neither the `RegisterFile`
init line nor the descriptor byte variable is emitted, while on
success both are emitted with no error. -/
theorem genFileDescriptor_error_behavior (gz : List Nat → List Nat) (e : String)
    (b : List Nat) :
    genFileDescriptor gz (.error e) =
      { errors := [e], registersFile := false, descriptorBytes := none } ∧
    genFileDescriptor gz (.ok b) =
      { errors := [], registersFile := true, descriptorBytes := some (gz b) } :=
  ⟨rfl, rfl⟩

/-- C10: every generated non-oneof getter body guards on the receiver
first, so evaluating it against a nil receiver yields the unset
default value; a proto2 field whose default expression is not `nil`
additionally checks the field pointer. -/
theorem genGetterBody_nil_receiver (m : Message) (f : Field)
    (hoo : f.data.inOneof = false) :
    guardHolds (genGetterBody m f).guard .nilRecv = false ∧
    runGetter (genGetterBody m f) .nilRecv = fieldDefaultValue m f ∧
    (f.data.version = .proto2 → fieldDefaultValue m f ≠ "nil" →
      (genGetterBody m f).guard = .recvAndFieldNonNil) := by
  refine ⟨?_, ?_, ?_⟩
  · cases hg : (genGetterBody m f).guard <;> simp [guardHolds]
  · simp [runGetter, guardHolds, genGetterBody]
  · intro hv hd
    simp only [genGetterBody]
    rw [if_neg]
    rintro (h | h)
    · rw [hv] at h
      exact ProtoVersion.noConfusion h
    · exact hd h

/-- C10 witness: the proto2 string-with-default getter checks both the
receiver and the field pointer, and on a nil receiver returns the
holder. -/
theorem genGetterBody_nil_receiver_witness :
    sampleStringDefField.data.inOneof = false ∧
      (genGetterBody sampleMessage sampleStringDefField).guard = GetterGuard.recvAndFieldNonNil ∧
      runGetter (genGetterBody sampleMessage sampleStringDefField) .nilRecv =
        fieldDefaultValue sampleMessage sampleStringDefField := by
  have h := genGetterBody_nil_receiver sampleMessage sampleStringDefField rfl
  refine ⟨rfl, ?_, h.2.1⟩
  exact h.2.2 rfl (by decide)

/-- Helper: the number→name table emits one row per declared value,
carrying the value's number and name, in declaration order. -/
theorem enumNameMapGo_pairs (vs : List EnumValue) (gen : List Int) :
    (enumNameMapGo vs gen).map (fun en => (en.number, en.valueName)) =
      vs.map (fun v => (v.number, v.name)) := by
  induction vs generalizing gen with
  | nil => rfl
  | cons v rest ih => simp [enumNameMapGo, ih]

/-- Helper: the i-th emitted row carries the duplicate marker iff the
value's number is in the seed set or repeats one of the first i
declared values. -/
theorem enumNameMapGo_duplicate (vs : List EnumValue) (gen : List Int) (i : Nat)
    (h : i < vs.length) :
    (((enumNameMapGo vs gen).getD i ⟨false, 0, ""⟩).duplicate = true ↔
      ((vs.getD i ⟨"", 0, ""⟩).number ∈ gen ∨
        ∃ w ∈ vs.take i, w.number = (vs.getD i ⟨"", 0, ""⟩).number)) := by
  induction vs generalizing gen i with
  | nil => simp at h
  | cons v rest ih =>
    cases i with
    | zero =>
      simp [enumNameMapGo, List.contains, List.elem_iff]
    | succ n =>
      have hn : n < rest.length := by simpa using h
      simp only [enumNameMapGo, List.getD_cons_succ, List.take_succ_cons]
      rw [ih (v.number :: gen) n hn]
      constructor
      · rintro (hmem | hex)
        · rcases List.mem_cons.mp hmem with he | hg
          · exact Or.inr ⟨v, List.mem_cons_self v _, he.symm⟩
          · exact Or.inl hg
        · rcases hex with ⟨w, hw, he⟩
          exact Or.inr ⟨w, List.mem_cons_of_mem v hw, he⟩
      · rintro (hg | ⟨w, hw, he⟩)
        · exact Or.inl (List.mem_cons_of_mem _ hg)
        · rcases List.mem_cons.mp hw with hwv | hw2
          · subst hwv
            exact Or.inl (he ▸ List.mem_cons_self _ _)
          · exact Or.inr ⟨w, hw2, he⟩

/-- C8: the number→name table covers every declared value in order
(rows for repeated numbers are emitted but carry the duplicate marker,
exactly when an earlier value already used the number, so the first
occurrence provides the effective entry), while the name→number table
has one row per declared value keyed by its name, with no
suppression. -/
theorem genEnum_tables (e : EnumType) :
    (enumNameMap e).map (fun en => (en.number, en.valueName)) =
      e.values.map (fun v => (v.number, v.name)) ∧
    (∀ i, i < e.values.length →
      (((enumNameMap e).getD i ⟨false, 0, ""⟩).duplicate = true ↔
        ∃ w ∈ e.values.take i, w.number = (e.values.getD i ⟨"", 0, ""⟩).number)) ∧
    enumValueMap e = e.values.map (fun v => (v.name, v.number)) := by
  refine ⟨enumNameMapGo_pairs e.values [], fun i h => ?_, rfl⟩
  rw [enumNameMap, enumNameMapGo_duplicate e.values [] i h]
  simp

/-- C8 witness: for `Color { RED = 0; GREEN = 1; BLUE = 1 }` the
number table rows are `(0, RED), (1, GREEN), (1, BLUE)` with only the
`BLUE` row marked duplicate, and the name table keeps all three
values. -/
theorem genEnum_tables_witness :
    (2 : Nat) < colorEnum.values.length ∧
      ((enumNameMap colorEnum).getD 2 ⟨false, 0, ""⟩).duplicate = true ∧
      ((enumNameMap colorEnum).getD 1 ⟨false, 0, ""⟩).duplicate = false ∧
      (enumNameMap colorEnum).map (fun en => (en.number, en.valueName)) =
        [(0, "RED"), (1, "GREEN"), (1, "BLUE")] ∧
      enumValueMap colorEnum = [("RED", 0), ("GREEN", 1), ("BLUE", 1)] := by
  have h := genEnum_tables colorEnum
  refine ⟨by decide, ?_, ?_, ?_, ?_⟩
  · rw [h.2.1 2 (by decide)]
    decide
  · have h1 := h.2.1 1 (by decide)
    by_contra hb
    simp only [Bool.not_eq_false] at hb
    have := h1.mp hb
    revert this
    decide
  · rw [h.1]
    rfl
  · rw [h.2.2]
    rfl

/-- Helper: the message loop of the init function registers, for each
non-map-entry message in order, its nested extensions, then the
message type, then its sorted map types. -/
theorem messagesInitRegs_eq (ms : List Message) :
    messagesInitRegs ms =
      (ms.filter (fun m => !m.isMapEntry)).flatMap (fun m =>
        m.extensions.flatMap genRegisterExtension
          ++ Reg.regType m.goName m.fullName
            :: (mapFieldsSorted m).map (fun fd =>
                Reg.regMapType (fieldGoType fd).1 fd.data.messageTypeFullName)) := by
  induction ms with
  | nil => rfl
  | cons m rest ih =>
    by_cases h : m.isMapEntry <;>
      simp [messagesInitRegs, h, ih, List.filter_cons]

/-- C2: the init block registers, in order: every enum under its
registry name; then for every message in declaration order (map-entry
pseudo-messages skipped) its nested extensions, the message under its
fully-qualified name, and its map fields' map types sorted by the
map-entry type's fully-qualified name (a sorted permutation of the
message's map fields); and finally the file-level extensions. -/
theorem genInitFunction_registration_order (f : FileInfo)
    (h : ¬(f.allMessages.length = 0 ∧ f.allEnums.length = 0 ∧
      f.allExtensions.length = 0)) :
    genInitFunction f =
      f.allEnums.map (fun e => Reg.regEnum (enumRegistryName e))
        ++ (f.allMessages.filter (fun m => !m.isMapEntry)).flatMap (fun m =>
            m.extensions.flatMap genRegisterExtension
              ++ Reg.regType m.goName m.fullName
                :: (mapFieldsSorted m).map (fun fd =>
                    Reg.regMapType (fieldGoType fd).1 fd.data.messageTypeFullName))
        ++ f.extensions.flatMap genRegisterExtension ∧
    (∀ m : Message, List.Sorted mapNameLe (mapFieldsSorted m) ∧
      (mapFieldsSorted m).Perm (m.fields.filter (fun fd => fd.data.isMap))) := by
  constructor
  · rw [genInitFunction, if_neg h, messagesInitRegs_eq]
  · intro m
    exact ⟨List.sorted_insertionSort mapNameLe _, List.perm_insertionSort mapNameLe _⟩

/-- C2 witness: the sample file (one enum, one message with one map
field) registers the enum, then the message type, then the map type,
in that order. -/
theorem genInitFunction_registration_order_witness :
    ¬(sampleFileInfo.allMessages.length = 0 ∧ sampleFileInfo.allEnums.length = 0 ∧
        sampleFileInfo.allExtensions.length = 0) ∧
      genInitFunction sampleFileInfo =
        [Reg.regEnum "test.Color", Reg.regType "M" "test.M",
          Reg.regMapType "map[string]int32" "test.M.TagsEntry"] := by
  refine ⟨by decide, ?_⟩
  rw [(genInitFunction_registration_order sampleFileInfo (by decide)).1]
  rfl

end ProtocGenGo
